import Mathlib

/-!
# Trance Studio step sequencer: pitch mapping, pattern store and transport

A shallow embedding of `src/app/page.jsx` (the React component `Page`).

Modelling conventions

* JavaScript numbers that the pitch helpers compute are integers or `NaN`; they are
  embedded as `JSNum` (exact integers, valid for magnitudes below 2^53).
* `undefined` read from an array (an index past the end or an empty slot) is `none`,
  so a gate array is a `List (Option Bool)`.
* React state is one record `App`; every handler is a function `App → App`.  The
  closure created by `initAudio` for `tone.Loop` is the record `Loop`: it owns the
  counter `step` and the values of `root` and `scale` of the render that created it.
* `patternsRef.current` is refreshed by an effect after every render, so a tick reads
  the gate arrays of the current `App`.
* Calls into Tone.js (`triggerAttackRelease`) are recorded as `Trigger` outputs.
-/

namespace TranceStudio

/-! ## Values -/

/-- A JavaScript number as produced by the pitch helpers: an integer or `NaN`. -/
inductive JSNum where
  | int (i : Int)
  | nan
  deriving DecidableEq

/-- The sum `x + k` of a JavaScript number and an integer. -/
def JSNum.add (x : JSNum) (k : Int) : JSNum :=
  match x with
  | .int i => .int (i + k)
  | .nan => .nan

/-- An exception thrown by the JavaScript runtime. -/
inductive JSError where
  | typeError (msg : String)
  deriving DecidableEq

/-! ## PitchMapper: `noteToMidi`, `midiToNote`, `transpose`, `buildTranceChord` -/

/-- The character class `[A-G]`. -/
def isNoteLetter (c : Char) : Bool := decide ('A' ≤ c) && decide (c ≤ 'G')

/-- The alternation `(?:#|b)`. -/
def isAccidental (c : Char) : Bool := c == '#' || c == 'b'

/-- The match `note.match(/^([A-G](?:#|b)?)(-?\d)$/)`: the two captured groups `n` and `o`,
or `none` when the string does not match. -/
def matchNote (note : String) : Option (String × String) :=
  match note.toList with
  | [l, d] =>
    if isNoteLetter l && d.isDigit then some (String.mk [l], String.mk [d]) else none
  | [l, x, d] =>
    if isNoteLetter l && d.isDigit then
      if isAccidental x then some (String.mk [l, x], String.mk [d])
      else if x == '-' then some (String.mk [l], String.mk [x, d])
      else none
    else none
  | [l, a, m, d] =>
    if isNoteLetter l && isAccidental a && m == '-' && d.isDigit then
      some (String.mk [l, a], String.mk [m, d])
    else none
  | _ => none

/-- The object literal `map` of `noteToMidi`, as its list of own properties. -/
def pitchClassMap : List (String × Int) :=
  [("C", 0), ("C#", 1), ("Db", 1), ("D", 2), ("D#", 3), ("Eb", 3), ("E", 4), ("F", 5),
   ("F#", 6), ("Gb", 6), ("G", 7), ("G#", 8), ("Ab", 8), ("A", 9), ("A#", 10), ("Bb", 10),
   ("B", 11)]

/-- The call `parseInt(o)` on the second captured group, which is one digit with an optional
leading minus sign. -/
def parseInt (o : String) : Int :=
  match o.toList with
  | [d] => ((d.toNat - '0'.toNat : Nat) : Int)
  | [_, d] => - ((d.toNat - '0'.toNat : Nat) : Int)
  | _ => 0

/-- The function `noteToMidi`: `60` when the regular expression does not match, otherwise
`(parseInt(o) + 1) * 12 + map[n]`, which is `NaN` when `n` is not a key of `map`. -/
def noteToMidi (note : String) : JSNum :=
  match matchNote note with
  | none => .int 60
  | some (n, o) =>
    match pitchClassMap.lookup n with
    | some pc => .int ((parseInt o + 1) * 12 + pc)
    | none => .nan

/-- The array `names` of `midiToNote`. -/
def names : List String := ["C", "C#", "D", "D#", "E", "F", "F#", "G", "G#", "A", "A#", "B"]

/-- The function `midiToNote`: the template string of `names[midi % 12]` and
`Math.floor(midi / 12) - 1`.  The remainder `%` truncates towards zero, so for a negative
`midi` that is no multiple of 12 the index is negative and the name is `undefined`. -/
def midiToNote (midi : JSNum) : String :=
  match midi with
  | .nan => "undefined" ++ "NaN"
  | .int m =>
    let r := Int.tmod m 12
    let name := if 0 ≤ r then names.getD r.toNat "undefined" else "undefined"
    let oct := Int.fdiv m 12 - 1
    name ++ toString oct

/-- The function `transpose`. -/
def transpose (note : String) (semitones : Int) : String :=
  midiToNote ((noteToMidi note).add semitones)

/-- The property names every object literal inherits from `Object.prototype`. -/
def objectPrototypeKeys : List String :=
  ["constructor", "__defineGetter__", "__defineSetter__", "hasOwnProperty",
   "__lookupGetter__", "__lookupSetter__", "isPrototypeOf", "propertyIsEnumerable",
   "toString", "valueOf", "__proto__", "toLocaleString"]

/-- The result of reading a property of the scale table: an own template, a member inherited
from `Object.prototype` (a function or object, truthy, without a `map` method), or
`undefined`. -/
inductive ScaleLookup where
  | own (semis : List Int)
  | inherited
  | undefined
  deriving DecidableEq

/-- The property read `{ minor: …, major: …, dorian: … }[scaleName]`. -/
def scaleTable (scaleName : String) : ScaleLookup :=
  if scaleName = "minor" then .own [0, 3, 7, 10]
  else if scaleName = "major" then .own [0, 4, 7, 11]
  else if scaleName = "dorian" then .own [0, 2, 5, 9]
  else if scaleName ∈ objectPrototypeKeys then .inherited
  else .undefined

/-- The expression `table[scaleName] || [0, 3, 7, 10]`: only `undefined` is falsy. -/
def semisOf (scaleName : String) : ScaleLookup :=
  match scaleTable scaleName with
  | .undefined => .own [0, 3, 7, 10]
  | v => v

/-- The function `buildTranceChord`.  Calling `semis.map` on an inherited member, or
`transpose` on a missing element of `notes`, throws a `TypeError`. -/
def buildTranceChord (rootNote scaleName : String) : Except JSError (List String) :=
  match semisOf scaleName with
  | .own semis =>
    let rootMidi := noteToMidi (rootNote ++ "4")
    let notes := semis.map (fun s => midiToNote (rootMidi.add s))
    match notes with
    | n0 :: n1 :: n2 :: n3 :: _ =>
      .ok [n0, n1, n2, n3, transpose n0 12, transpose n1 12, transpose n2 12, transpose n3 12]
    | _ => .error (.typeError "Cannot read properties of undefined (reading match)")
  | _ => .error (.typeError "semis.map is not a function")

/-! ## PatternStore: gate arrays, `toggleStep`, `setAll`, `loadPreset` -/

/-- A gate array; `none` is `undefined` (an empty slot). -/
abbrev Gates := List (Option Bool)

/-- Truthiness of an array element. -/
def truthy : Option Bool → Bool
  | some true => true
  | _ => false

/-- The read `arr[i]`. -/
def arrayGet (arr : Gates) (i : Nat) : Option Bool := arr.getD i none

/-- The assignment `arr[i] = v`, which lengthens the array when `i` is past its end. -/
def arraySet (arr : Gates) (i : Nat) (v : Option Bool) : Gates :=
  if i < arr.length then arr.set i v
  else arr ++ List.replicate (i - arr.length) none ++ [v]

/-- The array `Array(16).fill(false).map((_, i) => f(i))`. -/
def gatesOf (f : Nat → Bool) : Gates := (List.range 16).map (fun i => some (f i))

/-- The closure handed to `tone.Loop` by `initAudio`: its counter `step`, the `root` and
`scale` bindings of the render in which `initAudio` ran, and whether the loop is started. -/
structure Loop where
  step : Nat
  root : String
  scale : String
  started : Bool
  deriving DecidableEq

/-- The state of the component `Page`. -/
structure App where
  tone : Bool
  isStarted : Bool
  isPlaying : Bool
  bpm : Int
  currentStep : Nat
  kick : Gates
  snare : Gates
  hat : Gates
  leadGate : Gates
  scale : String
  root : String
  reverbWet : ℚ
  delayWet : ℚ
  filterCutoff : ℚ
  loop : Option Loop
  transport : Bool

/-- The state after the first render: the `useState` initial values, Tone.js not loaded. -/
def App.initial : App where
  tone := false
  isStarted := false
  isPlaying := false
  bpm := 138
  currentStep := 0
  kick := gatesOf (fun i => i % 4 == 0)
  snare := gatesOf (fun i => i % 8 == 4)
  hat := gatesOf (fun i => i % 2 == 0)
  leadGate := gatesOf (fun i => [0, 1, 2, 5, 8, 9, 10, 13].contains i)
  scale := "minor"
  root := "A"
  reverbWet := 25 / 100
  delayWet := 22 / 100
  filterCutoff := 8000
  loop := none
  transport := false

/-- The initial state once the dynamic import of Tone.js has resolved (`setTone(T)`). -/
def App.ready : App := { App.initial with tone := true }

/-- The handler `setRoot` of the root drop-down. -/
def setRoot (s : App) (r : String) : App := { s with root := r }

/-- The handler `setScale` of the scale drop-down. -/
def setScale (s : App) (sc : String) : App := { s with scale := sc }

/-- The helper `update` of `toggleStep`: `next = arr.slice(); next[index] = !next[index]`. -/
def update (arr : Gates) (index : Nat) : Gates :=
  arraySet arr index (some (!(truthy (arrayGet arr index))))

/-- The function `toggleStep`.  No path of the source throws, so every result is `ok`. -/
def toggleStep (s : App) (track : String) (index : Nat) : Except JSError App :=
  if track = "kick" then .ok { s with kick := update s.kick index }
  else if track = "snare" then .ok { s with snare := update s.snare index }
  else if track = "hat" then .ok { s with hat := update s.hat index }
  else if track = "leadGate" then .ok { s with leadGate := update s.leadGate index }
  else .ok s

/-- The helper `pad` of `setAll`. -/
def pad (arr : Gates) : Gates :=
  (if arr.length < 16 then arr ++ List.replicate (16 - arr.length) (some false) else arr).take 16

/-- The function `setAll`. -/
def setAll (s : App) (track : String) (pattern : Gates) : App :=
  let s1 := if track = "kick" then { s with kick := pad pattern } else s
  let s2 := if track = "snare" then { s1 with snare := pad pattern } else s1
  let s3 := if track = "hat" then { s2 with hat := pad pattern } else s2
  if track = "leadGate" then { s3 with leadGate := pad pattern } else s3

/-- A parsed preset object; a field is `none` when the property is missing (or `null`), which
is when `??` takes its right operand. -/
structure Preset where
  bpm : Option Int
  kick : Option Gates
  snare : Option Gates
  hat : Option Gates
  leadGate : Option Gates
  reverbWet : Option ℚ
  delayWet : Option ℚ
  filterCutoff : Option ℚ
  scale : Option String
  root : Option String

/-- The preset with no property at all, the object `{}`. -/
def Preset.empty : Preset :=
  ⟨none, none, none, none, none, none, none, none, none, none⟩

/-- The body of the `try` block of `loadPreset`, applied to the parsed object `p`. -/
def loadPreset (s : App) (p : Preset) : App :=
  { s with
    bpm := p.bpm.getD 138
    kick := p.kick.getD s.kick
    snare := p.snare.getD s.snare
    hat := p.hat.getD s.hat
    leadGate := p.leadGate.getD s.leadGate
    reverbWet := p.reverbWet.getD s.reverbWet
    delayWet := p.delayWet.getD s.delayWet
    filterCutoff := p.filterCutoff.getD s.filterCutoff
    scale := p.scale.getD s.scale
    root := p.root.getD s.root }

/-! ## StepScheduler and TransportController -/

/-- A call of `triggerAttackRelease` on one of the four voices. -/
inductive Trigger where
  | kick
  | snare
  | hat
  | lead (note : String)
  deriving DecidableEq

/-- What one firing of the loop produces: the new state, the argument of `setCurrentStep`
(if the callback ran), the voice triggers in order, and the exception that ended the callback
early (if any). -/
structure TickOut where
  app : App
  published : Option Nat
  triggers : List Trigger
  error : Option JSError

/-- The function `initAudio`: returns at once without Tone.js; otherwise builds the loop with
`step = 0`, capturing `root` and `scale`, and sets `isStarted`. -/
def initAudio (s : App) : App :=
  if !s.tone then s
  else { s with loop := some ⟨0, s.root, s.scale, false⟩, isStarted := true }

/-- The function `play`. -/
def play (s : App) : App :=
  let s1 := if !s.isStarted then initAudio s else s
  if !s.tone then s1
  else
    let s2 : App :=
      match s1.loop with
      | some l => if !l.started then { s1 with loop := some { l with started := true } } else s1
      | none => s1
    { s2 with transport := true, isPlaying := true }

/-- The function `stop`. -/
def stop (s : App) : App :=
  if !s.tone then s
  else
    { s with
      transport := false
      loop := s.loop.map (fun l => { l with started := false })
      currentStep := 0
      isPlaying := false }

/-- The drum triggers of one step, in source order. -/
def drumTriggers (s : App) (step : Nat) : List Trigger :=
  (if truthy (arrayGet s.kick step) then [Trigger.kick] else []) ++
  (if truthy (arrayGet s.snare step) then [Trigger.snare] else []) ++
  (if truthy (arrayGet s.hat step) then [Trigger.hat] else [])

/-- The callback of `tone.Loop`: publish `step`, trigger the drums, trigger the lead with
`chord[step % chord.length]` of `buildTranceChord(root, scale)` for the captured `root` and
`scale`, then advance `step`.  An exception from `buildTranceChord` leaves the callback
before the counter is advanced. -/
def loopCallback (s : App) (l : Loop) : TickOut :=
  let s1 := { s with currentStep := l.step }
  let drums := drumTriggers s l.step
  let advanced : App := { s1 with loop := some { l with step := (l.step + 1) % 16 } }
  if truthy (arrayGet s.leadGate l.step) then
    match buildTranceChord l.root l.scale with
    | .ok chord =>
      let note := chord.getD (l.step % chord.length) "undefined"
      ⟨advanced, some l.step, drums ++ [Trigger.lead note], none⟩
    | .error e => ⟨s1, some l.step, drums, some e⟩
  else ⟨advanced, some l.step, drums, none⟩

/-- One sixteenth-note tick of the transport: runs the callback when the loop exists and both
the loop and the transport are started. -/
def tick (s : App) : TickOut :=
  match s.loop with
  | some l => if l.started && s.transport then loopCallback s l else ⟨s, none, [], none⟩
  | none => ⟨s, none, [], none⟩

/-- The four gate arrays of a state. -/
structure Patterns where
  kick : Gates
  snare : Gates
  hat : Gates
  leadGate : Gates

/-- The state after the user has edited the four gate arrays to `p`. -/
def App.withPatterns (s : App) (p : Patterns) : App :=
  { s with kick := p.kick, snare := p.snare, hat := p.hat, leadGate := p.leadGate }

/-- The four gate arrays of a state, as the user left them. -/
def App.patterns (s : App) : Patterns := ⟨s.kick, s.snare, s.hat, s.leadGate⟩

/-- The preset object `{ "scale": "constructor" }`. -/
def Preset.inheritedScale : Preset := { Preset.empty with scale := some "constructor" }

/-- The state after `n` ticks, where the gate arrays read by tick `i` are `pats i`. -/
def runTicks (pats : Nat → Patterns) : Nat → App → App
  | 0, s => s
  | n + 1, s => (tick ((runTicks pats n s).withPatterns (pats n))).app

/-- The output of tick number `n` (counting from 0) of a run that starts in `s`. -/
def nthTick (pats : Nat → Patterns) (n : Nat) (s : App) : TickOut :=
  tick ((runTicks pats n s).withPatterns (pats n))

/-- The gate array of a track name; empty for a name that is no track. -/
def getTrack (s : App) (track : String) : Gates :=
  if track = "kick" then s.kick
  else if track = "snare" then s.snare
  else if track = "hat" then s.hat
  else if track = "leadGate" then s.leadGate
  else []

/-- The four track names. -/
def trackNames : List String := ["kick", "snare", "hat", "leadGate"]

/-! ## Vocabulary of the specification -/

/-- The twelve root names offered by the root drop-down. -/
def rootNames : List String := ["C", "C#", "D", "D#", "E", "F", "F#", "G", "G#", "A", "A#", "B"]

/-- The seventeen spellings that are keys of `map` in `noteToMidi`. -/
def tableSpellings : List String := pitchClassMap.map Prod.fst

/-- The sharp spelling of the pitch class of a spelling. -/
def sharpSpelling (sp : String) : String :=
  match pitchClassMap.lookup sp with
  | some pc => names.getD pc.toNat "undefined"
  | none => "undefined"

/-- The value of a non-empty run of decimal digits. -/
def digitsValue : List Char → Option Nat
  | [] => none
  | ds => if ds.all Char.isDigit then some (ds.foldl (fun a d => 10 * a + (d.toNat - '0'.toNat)) 0)
    else none

/-- A signed decimal integer: an optional minus sign and at least one digit. -/
def signedValue : List Char → Option Int
  | '-' :: ds => (digitsValue ds).map (fun n => - (n : Int))
  | ds => (digitsValue ds).map (fun n => (n : Int))

/-- A note name as the specification describes it: a letter A–G, optionally `#` or `b`, then
a signed octave integer.  Returns the spelling and the octave. -/
def specNoteName (s : String) : Option (String × Int) :=
  match s.toList with
  | l :: a :: rest =>
    if isNoteLetter l then
      if isAccidental a then (signedValue rest).map (fun o => (String.mk [l, a], o))
      else (signedValue (a :: rest)).map (fun o => (String.mk [l], o))
    else none
  | _ => none

/-- The template the specification assigns to a scale name: minor for an unknown name. -/
def specTemplate (scaleName : String) : List Int :=
  if scaleName = "minor" then [0, 3, 7, 10]
  else if scaleName = "major" then [0, 4, 7, 11]
  else if scaleName = "dorian" then [0, 2, 5, 9]
  else [0, 3, 7, 10]

/-- The pitch numbers the specification assigns to the eight notes of a chord: the root at
octave 4 plus each template offset, then the same four pitches plus 12. -/
def specChordPitches (root scaleName : String) : List JSNum :=
  (specTemplate scaleName ++ (specTemplate scaleName).map (· + 12)).map
    (fun d => (noteToMidi (root ++ "4")).add d)

/-- The scheduler runs: Tone.js is loaded, the audio graph exists, the transport and the loop
are started, and the loop closure holds counter `st` and the captured `root` and `scale`. -/
def Running (s : App) (st : Nat) (root scale : String) : Prop :=
  s.tone = true ∧ s.isStarted = true ∧ s.transport = true ∧
    s.loop = some ⟨st, root, scale, true⟩

/-! ## PitchMapper: lemmas -/

theorem semisOf_cases (scale : String) (hs : scale ∉ objectPrototypeKeys) :
    ∃ sc ∈ ["minor", "major", "dorian"],
      semisOf scale = semisOf sc ∧ specTemplate scale = specTemplate sc := by
  by_cases h1 : scale = "minor"
  · exact ⟨"minor", by simp, by rw [h1], by rw [h1]⟩
  · by_cases h2 : scale = "major"
    · exact ⟨"major", by simp, by rw [h2], by rw [h2]⟩
    · by_cases h3 : scale = "dorian"
      · exact ⟨"dorian", by simp, by rw [h3], by rw [h3]⟩
      · refine ⟨"minor", by simp, ?_, ?_⟩
        · have : semisOf "minor" = .own [0, 3, 7, 10] := by decide
          rw [this]
          simp [semisOf, scaleTable, h1, h2, h3, hs]
        · have : specTemplate "minor" = [0, 3, 7, 10] := by decide
          rw [this]
          simp [specTemplate, h1, h2, h3]

theorem buildTranceChord_congr (root a b : String) (h : semisOf a = semisOf b) :
    buildTranceChord root a = buildTranceChord root b := by
  unfold buildTranceChord
  rw [h]

theorem buildTranceChord_returns (root scale : String) (hs : scale ∉ objectPrototypeKeys) :
    ∃ chord, buildTranceChord root scale = .ok chord := by
  unfold buildTranceChord semisOf scaleTable
  by_cases h1 : scale = "minor"
  · simp [h1]
  · by_cases h2 : scale = "major"
    · simp [h2]
    · by_cases h3 : scale = "dorian"
      · simp [h3]
      · simp [h1, h2, h3, hs]

set_option maxRecDepth 100000 in
theorem chord_table :
    ∀ root ∈ rootNames, ∀ sc ∈ ["minor", "major", "dorian"],
      (buildTranceChord root sc).toOption.map (List.map noteToMidi)
        = some (specChordPitches root sc) ∧
      noteToMidi (root ++ "4") = .int (60 + (rootNames.indexOf root : Nat)) := by
  decide

/-- For each of the twelve roots and every scale name that is not inherited from
`Object.prototype`, `buildTranceChord` returns eight notes whose pitch numbers are the root at
octave 4 plus the template offsets, followed by the same four pitches plus 12. -/
theorem buildTranceChord_pitches (root scale : String) (hr : root ∈ rootNames)
    (hs : scale ∉ objectPrototypeKeys) :
    ∃ notes, buildTranceChord root scale = .ok notes ∧ notes.length = 8 ∧
      noteToMidi (root ++ "4") = .int (60 + (rootNames.indexOf root : Nat)) ∧
      notes.map noteToMidi = specChordPitches root scale := by
  obtain ⟨sc, hsc, h1, h2⟩ := semisOf_cases scale hs
  obtain ⟨h, hroot⟩ := chord_table root hr sc hsc
  rw [buildTranceChord_congr root scale sc h1]
  have hp : specChordPitches root scale = specChordPitches root sc := by
    unfold specChordPitches; rw [h2]
  rw [hp]
  cases hc : buildTranceChord root sc with
  | error e => rw [hc] at h; simp [Except.toOption] at h
  | ok notes =>
    rw [hc] at h
    simp only [Except.toOption, Option.map_some', Option.some.injEq] at h
    refine ⟨notes, rfl, ?_, hroot, h⟩
    have := congrArg List.length h
    have h4 : (specTemplate sc).length = 4 := by
      unfold specTemplate; split_ifs <;> rfl
    simpa [specChordPitches, h4] using this

/-- The chord of the default root and scale. -/
theorem buildTranceChord_A_minor :
    buildTranceChord "A" "minor" = .ok ["A4", "C5", "E5", "G5", "A5", "C6", "E6", "G6"] := by
  rfl

set_option maxRecDepth 100000 in
theorem spelling_octave_table :
    ∀ sp ∈ tableSpellings, ∀ n : Nat, n < 11 →
      midiToNote (noteToMidi (sp ++ toString ((n : Int) - 1)))
        = sharpSpelling sp ++ toString ((n : Int) - 1) ∧
      noteToMidi (sharpSpelling sp ++ toString ((n : Int) - 1))
        = noteToMidi (sp ++ toString ((n : Int) - 1)) ∧
      specNoteName (sp ++ toString ((n : Int) - 1)) = some (sp, (n : Int) - 1) ∧
      specNoteName (sharpSpelling sp ++ toString ((n : Int) - 1))
        = some (sharpSpelling sp, (n : Int) - 1) := by
  decide

theorem spelling_table :
    ∀ sp ∈ tableSpellings, sharpSpelling sp ∈ names ∧
      pitchClassMap.lookup (sharpSpelling sp) = pitchClassMap.lookup sp ∧
      (sp ∈ names → sharpSpelling sp = sp) := by
  decide

set_option maxRecDepth 100000 in
theorem midi_roundtrip_table :
    ∀ x : Nat, x < 132 → noteToMidi (midiToNote (.int x)) = .int x := by
  decide

theorem octave_as_nat (o : Int) (hlo : -1 ≤ o) (hhi : o ≤ 9) :
    ∃ n : Nat, n < 11 ∧ o = (n : Int) - 1 :=
  ⟨(o + 1).toNat, by omega, by omega⟩

theorem transpose_back (sp : String) (o k m : Int) (hsp : sp ∈ tableSpellings)
    (hlo : -1 ≤ o) (hhi : o ≤ 9) (hm : noteToMidi (sp ++ toString o) = .int m)
    (hk0 : 0 ≤ m + k) (hk1 : m + k < 132) :
    transpose (transpose (sp ++ toString o) k) (-k) = sharpSpelling sp ++ toString o := by
  obtain ⟨n, hn, rfl⟩ := octave_as_nat o hlo hhi
  obtain ⟨hmid, -, -, -⟩ := spelling_octave_table sp hsp n hn
  obtain ⟨x, hx, hxe⟩ : ∃ x : Nat, x < 132 ∧ m + k = (x : Int) :=
    ⟨(m + k).toNat, by omega, by omega⟩
  have h1 : transpose (sp ++ toString ((n : Int) - 1)) k = midiToNote (.int x) := by
    unfold transpose
    rw [hm, JSNum.add, hxe]
  rw [h1]
  unfold transpose
  rw [midi_roundtrip_table x hx, JSNum.add, ← hmid, hm]
  congr 2
  omega

theorem digit_not_special (d : Char) (hd : d.isDigit = true) :
    d ≠ '-' ∧ isAccidental d = false := by
  refine ⟨?_, ?_⟩
  · rintro rfl
    exact absurd hd (by decide)
  · unfold isAccidental
    have h1 : d ≠ '#' := by rintro rfl; exact absurd hd (by decide)
    have h2 : d ≠ 'b' := by rintro rfl; exact absurd hd (by decide)
    simp [h1, h2]

theorem signedValue_digit (d : Char) (hd : d.isDigit = true) :
    (∃ o, signedValue [d] = some o) ∧ ∃ o2, signedValue ['-', d] = some o2 := by
  have h := (digit_not_special d hd).1
  constructor
  · unfold signedValue
    split
    · rename_i heq
      simp at heq
      exact absurd heq.1 h
    · simp [digitsValue, hd]
  · simp [signedValue, digitsValue, hd]

/-- Every string the regular expression of `noteToMidi` accepts is a note name in the sense of
the specification. -/
theorem matchNote_some_spec (s : String) (r : String × String) (h : matchNote s = some r) :
    ∃ v, specNoteName s = some v := by
  unfold matchNote at h
  unfold specNoteName
  generalize s.toList = l at h ⊢
  rcases l with _ | ⟨a, _ | ⟨b, _ | ⟨c, _ | ⟨d, _ | ⟨e, t⟩⟩⟩⟩⟩
  · simp at h
  · simp at h
  · simp only at h ⊢
    split_ifs at h with h1
    simp only [Bool.and_eq_true] at h1
    obtain ⟨⟨o, ho⟩, -⟩ := signedValue_digit b h1.2
    simp [h1.1, (digit_not_special b h1.2).2, ho]
  · simp only at h ⊢
    split_ifs at h with h1 h2 h3
    · simp only [Bool.and_eq_true] at h1
      obtain ⟨⟨o, ho⟩, -⟩ := signedValue_digit c h1.2
      simp [h1.1, h2, ho]
    · simp only [Bool.and_eq_true] at h1
      obtain ⟨-, o2, ho2⟩ := signedValue_digit c h1.2
      have hb : b = '-' := by simpa using h3
      subst hb
      simp [h1.1, h2, ho2]
  · simp only at h ⊢
    split_ifs at h with h1
    simp only [Bool.and_eq_true] at h1
    obtain ⟨⟨⟨ha, hb⟩, hc⟩, hd⟩ := h1
    obtain ⟨-, o2, ho2⟩ := signedValue_digit d hd
    have hc2 : c = '-' := by simpa using hc
    subst hc2
    simp [ha, hb, ho2]
  · simp at h

/-- Every string that is not a note name in the sense of the specification is mapped to the
fallback pitch 60 by `noteToMidi`. -/
theorem noteToMidi_fallback (s : String) (h : specNoteName s = none) :
    noteToMidi s = .int 60 := by
  unfold noteToMidi
  cases hm : matchNote s with
  | none => rfl
  | some r =>
    obtain ⟨v, hv⟩ := matchNote_some_spec s r hm
    rw [hv] at h
    cases h

/-! ## PatternStore: lemmas -/

theorem pad_eq (arr : Gates) :
    pad arr = (arr ++ List.replicate (16 - arr.length) (some false)).take 16 := by
  unfold pad
  split_ifs with h
  · rfl
  · have : 16 - arr.length = 0 := by omega
    simp [this]

theorem pad_length (arr : Gates) : (pad arr).length = 16 := by
  rw [pad_eq]
  simp
  omega

theorem pad_getElem?_lt (arr : Gates) (i : Nat) (h : i < arr.length) (h16 : i < 16) :
    (pad arr)[i]? = arr[i]? := by
  rw [pad_eq, List.getElem?_take_of_lt h16, List.getElem?_append_left h]

theorem pad_getElem?_ge (arr : Gates) (i : Nat) (h : arr.length ≤ i) (h16 : i < 16) :
    (pad arr)[i]? = some (some false) := by
  rw [pad_eq, List.getElem?_take_of_lt h16, List.getElem?_append_right h,
    List.getElem?_replicate]
  simp
  omega

theorem setAll_track (s : App) (track : String) (pattern : Gates) (ht : track ∈ trackNames) :
    getTrack (setAll s track pattern) track = pad pattern := by
  simp only [trackNames, List.mem_cons, List.mem_singleton, List.not_mem_nil, or_false] at ht
  rcases ht with rfl | rfl | rfl | rfl <;> simp [setAll, getTrack]

theorem setAll_other (s : App) (track t : String) (pattern : Gates) (hne : t ≠ track) :
    getTrack (setAll s track pattern) t = getTrack s t := by
  unfold setAll getTrack
  by_cases h1 : t = "kick"
  · subst h1
    have : ¬ track = "kick" := fun h => hne h.symm
    simp only [this, if_false, if_true]
    split_ifs <;> rfl
  · by_cases h2 : t = "snare"
    · subst h2
      have : ¬ track = "snare" := fun h => hne h.symm
      simp only [this, if_false, if_true, h1]
      split_ifs <;> rfl
    · by_cases h3 : t = "hat"
      · subst h3
        have : ¬ track = "hat" := fun h => hne h.symm
        simp only [this, if_false, if_true, h1, h2]
        split_ifs <;> rfl
      · by_cases h4 : t = "leadGate"
        · subst h4
          have : ¬ track = "leadGate" := fun h => hne h.symm
          simp only [this, if_false, if_true, h1, h2, h3]
          split_ifs <;> rfl
        · simp only [h1, h2, h3, h4, if_false]

theorem update_getElem?_self (arr : Gates) (i : Nat) :
    (update arr i)[i]? = some (some (!(truthy (arrayGet arr i)))) := by
  unfold update arraySet
  split_ifs with h
  · simp [h]
  · rw [List.getElem?_append_right (by simp; omega)]
    have h0 : i - (arr ++ List.replicate (i - arr.length) none).length = 0 := by
      simp
      omega
    rw [h0]
    rfl

theorem update_getElem?_other (arr : Gates) (i j : Nat) (hne : j ≠ i) (hj : j < arr.length) :
    (update arr i)[j]? = arr[j]? := by
  unfold update arraySet
  split_ifs with h
  · rw [List.getElem?_set_ne (Ne.symm hne)]
  · rw [List.append_assoc, List.getElem?_append_left hj]

theorem toggleStep_returns (s : App) (track : String) (index : Nat) :
    ∃ s1, toggleStep s track index = .ok s1 := by
  unfold toggleStep
  split_ifs <;> exact ⟨_, rfl⟩

theorem toggleStep_unknown (s : App) (track : String) (index : Nat)
    (ht : track ∉ trackNames) : toggleStep s track index = .ok s := by
  simp only [trackNames, List.mem_cons, List.mem_singleton, List.not_mem_nil, or_false,
    not_or] at ht
  obtain ⟨h1, h2, h3, h4⟩ := ht
  simp [toggleStep, h1, h2, h3, h4]

theorem toggleStep_other (s : App) (track t : String) (index : Nat) (hne : t ≠ track) :
    ∀ s1, toggleStep s track index = .ok s1 → getTrack s1 t = getTrack s t := by
  intro s1 h
  unfold toggleStep at h
  split_ifs at h with h1 h2 h3 h4 <;> cases h <;> unfold getTrack
  · have : ¬ t = "kick" := fun e => hne (e.trans h1.symm)
    simp [this]
  · have : ¬ t = "snare" := fun e => hne (e.trans h2.symm)
    simp [this]
  · have : ¬ t = "hat" := fun e => hne (e.trans h3.symm)
    simp [this]
  · have : ¬ t = "leadGate" := fun e => hne (e.trans h4.symm)
    simp [this]
  · rfl

theorem toggleStep_track (s : App) (track : String) (index : Nat) (ht : track ∈ trackNames) :
    ∀ s1, toggleStep s track index = .ok s1 →
      getTrack s1 track = update (getTrack s track) index := by
  intro s1 h
  simp only [trackNames, List.mem_cons, List.mem_singleton, List.not_mem_nil, or_false] at ht
  rcases ht with rfl | rfl | rfl | rfl <;> simp [toggleStep] at h <;> subst h <;>
    simp [getTrack]

/-- What `loadPreset` writes to each field: the preset value when present, otherwise the
current value, except for `bpm`, whose fallback is the constant 138. -/
theorem loadPreset_fields (s : App) (p : Preset) :
    (loadPreset s p).bpm = p.bpm.getD 138 ∧
    (loadPreset s p).kick = p.kick.getD s.kick ∧
    (loadPreset s p).snare = p.snare.getD s.snare ∧
    (loadPreset s p).hat = p.hat.getD s.hat ∧
    (loadPreset s p).leadGate = p.leadGate.getD s.leadGate ∧
    (loadPreset s p).reverbWet = p.reverbWet.getD s.reverbWet ∧
    (loadPreset s p).delayWet = p.delayWet.getD s.delayWet ∧
    (loadPreset s p).filterCutoff = p.filterCutoff.getD s.filterCutoff ∧
    (loadPreset s p).scale = p.scale.getD s.scale ∧
    (loadPreset s p).root = p.root.getD s.root :=
  ⟨rfl, rfl, rfl, rfl, rfl, rfl, rfl, rfl, rfl, rfl⟩

/-! ## StepScheduler and TransportController: lemmas -/

theorem play_fresh (s : App) (htone : s.tone = true) (hfresh : s.isStarted = false) :
    Running (play s) 0 s.root s.scale := by
  simp [Running, play, initAudio, htone, hfresh]

theorem withPatterns_running (s : App) (p : Patterns) (st : Nat) (root scale : String)
    (h : Running s st root scale) : Running (s.withPatterns p) st root scale := by
  simpa [Running, App.withPatterns] using h

theorem tick_running (s : App) (st : Nat) (root scale : String)
    (h : Running s st root scale) (hs : scale ∉ objectPrototypeKeys) :
    (tick s).published = some st ∧ (tick s).error = none ∧
      Running (tick s).app ((st + 1) % 16) root scale := by
  obtain ⟨h1, h2, h3, h4⟩ := h
  obtain ⟨chord, hc⟩ := buildTranceChord_returns root scale hs
  unfold tick
  rw [h4]
  simp only [h3, Bool.and_self, if_true]
  unfold loopCallback
  simp only [hc]
  by_cases hg : truthy (arrayGet s.leadGate st) = true
  · simp [hg, Running, h1, h2, h3]
  · simp [hg, Running, h1, h2, h3]

theorem runTicks_running (pats : Nat → Patterns) (s : App) (root scale : String)
    (h : Running s 0 root scale) (hs : scale ∉ objectPrototypeKeys) (n : Nat) :
    Running (runTicks pats n s) (n % 16) root scale := by
  induction n with
  | zero => simpa [runTicks] using h
  | succ n ih =>
    have := (tick_running _ _ _ _ (withPatterns_running _ (pats n) _ _ _ ih) hs).2.2
    simpa [runTicks, Nat.add_mod] using this

theorem nthTick_running (pats : Nat → Patterns) (s : App) (root scale : String)
    (h : Running s 0 root scale) (hs : scale ∉ objectPrototypeKeys) (n : Nat) :
    (nthTick pats n s).published = some (n % 16) ∧ (nthTick pats n s).error = none :=
  have h := tick_running _ _ _ _
    (withPatterns_running _ (pats n) _ _ _ (runTicks_running pats s root scale h hs n)) hs
  ⟨h.1, h.2.1⟩

theorem tick_stuck (s : App) (root : String) (h : Running s 0 root "constructor")
    (hg : truthy (arrayGet s.leadGate 0) = true) :
    (tick s).published = some 0 ∧
    (tick s).error = some (.typeError "semis.map is not a function") ∧
    Running (tick s).app 0 root "constructor" := by
  obtain ⟨h1, h2, h3, h4⟩ := h
  have hc : buildTranceChord root "constructor"
      = .error (.typeError "semis.map is not a function") := rfl
  unfold tick
  rw [h4]
  simp only [h3, Bool.and_self, if_true]
  unfold loopCallback
  simp only [hc, hg, if_true]
  simp [Running, h1, h2, h3, h4]

theorem stop_play_running (s : App) (st : Nat) (root scale : String)
    (h : Running s st root scale) :
    (stop s).currentStep = 0 ∧ Running (play (stop s)) st root scale := by
  obtain ⟨h1, h2, h3, h4⟩ := h
  simp [Running, play, stop, h1, h2, h4]

/-! ## The claims -/

/-- Claim C1 (code defect): `buildTranceChord` does not fall back to the minor template for
every unknown scale name.  For the name `constructor` the table read yields the member
inherited from `Object.prototype`, which is truthy, so `semis.map` throws a `TypeError` and no
note is returned. -/
theorem buildTranceChord_inherited_scale_name :
    "constructor" ∉ ["minor", "major", "dorian"] ∧
    buildTranceChord "A" "constructor" = .error (.typeError "semis.map is not a function") :=
  ⟨by decide, rfl⟩

/-- Claim C2 (counterexample): `C10` is a note name with octave 10, but
`midiToNote(noteToMidi("C10"))` is `C4`, a name with octave 4: the regular expression accepts
one octave digit only, so the fallback 60 is returned. -/
theorem midiToNote_noteToMidi_two_digit_octave :
    specNoteName "C10" = some ("C", 10) ∧
    midiToNote (noteToMidi "C10") = "C4" ∧
    specNoteName "C4" = some ("C", 4) := by
  decide

/-- Claim C2 (amended): for every spelling `sp` among the seventeen keys of the table of
`noteToMidi` and every octave `o` from -1 to 9, the name `sp ++ o` is a note name, and
`midiToNote(noteToMidi(sp ++ o))` is the sharp spelling of the same pitch class followed by
the same octave `o`; it has the same pitch number and its spelling is one of the twelve sharp
names, never a flat. -/
theorem midiToNote_noteToMidi_sharp (sp : String) (o : Int) (hsp : sp ∈ tableSpellings)
    (hlo : -1 ≤ o) (hhi : o ≤ 9) :
    specNoteName (sp ++ toString o) = some (sp, o) ∧
    midiToNote (noteToMidi (sp ++ toString o)) = sharpSpelling sp ++ toString o ∧
    specNoteName (sharpSpelling sp ++ toString o) = some (sharpSpelling sp, o) ∧
    sharpSpelling sp ∈ names ∧
    pitchClassMap.lookup (sharpSpelling sp) = pitchClassMap.lookup sp ∧
    noteToMidi (sharpSpelling sp ++ toString o) = noteToMidi (sp ++ toString o) := by
  obtain ⟨n, hn, rfl⟩ := octave_as_nat o hlo hhi
  obtain ⟨h1, h2, h3, h4⟩ := spelling_octave_table sp hsp n hn
  obtain ⟨h5, h6, -⟩ := spelling_table sp hsp
  exact ⟨h3, h1, h4, h5, h6, h2⟩

/-- Claim C2 (witness): the flat name `Bb3` is mapped to `A#3`. -/
theorem midiToNote_noteToMidi_sharp_witness :
    "Bb" ∈ tableSpellings ∧ (-1 : Int) ≤ 3 ∧ (3 : Int) ≤ 9 ∧
    midiToNote (noteToMidi ("Bb" ++ toString (3 : Int))) = sharpSpelling "Bb" ++ toString (3 : Int) :=
  ⟨by decide, by decide, by decide,
    (midiToNote_noteToMidi_sharp "Bb" 3 (by decide) (by decide) (by decide)).2.1⟩

/-- Claim C3 (code defect): the loop callback uses the `root` and `scale` captured when
`initAudio` ran.  After `play()` with root A and a later change of the root to C, the tick at
step 0 (lead gate true) triggers the lead with `A4`, while the chord of the root and scale
selected at that tick starts with `C4`. -/
theorem lead_note_uses_captured_root :
    (setRoot (play App.ready) "C").root = "C" ∧
    (setRoot (play App.ready) "C").scale = "minor" ∧
    truthy (arrayGet (setRoot (play App.ready) "C").leadGate 0) = true ∧
    (tick (setRoot (play App.ready) "C")).published = some 0 ∧
    (tick (setRoot (play App.ready) "C")).triggers
      = [Trigger.kick, Trigger.hat, Trigger.lead "A4"] ∧
    buildTranceChord "C" "minor"
      = .ok ["C4", "D#4", "G4", "A#4", "C5", "D#5", "G5", "A#5"] :=
  ⟨rfl, rfl, by decide, by decide, by decide, rfl⟩

/-- Claim C4 (code defect): a preset without `bpm` does not leave the tempo at its current
value.  With the current tempo 140 and the empty preset, `loadPreset` sets the tempo to the
constant 138, while `reverbWet`, also missing, keeps its current value. -/
theorem loadPreset_missing_bpm :
    ({ App.ready with bpm := 140 } : App).bpm = 140 ∧
    (loadPreset { App.ready with bpm := 140 } Preset.empty).bpm = 138 ∧
    (loadPreset { App.ready with bpm := 140 } Preset.empty).reverbWet = App.ready.reverbWet :=
  ⟨rfl, rfl, rfl⟩

/-- Claim C5 (code defect): `stop()` resets the displayed step but not the counter of the
loop.  After `k` ticks, `stop()` publishes step 0, yet the first tick after the next `play()`
publishes `k mod 16`; after one tick that is step 1, not step 0. -/
theorem stop_keeps_loop_counter (pats : Nat → Patterns) (k : Nat) :
    (stop (runTicks pats k (play App.ready))).currentStep = 0 ∧
    (tick (play (stop (runTicks pats k (play App.ready))))).published = some (k % 16) ∧
    (tick (play (stop (tick (play App.ready)).app))).published = some 1 := by
  have hr := runTicks_running pats (play App.ready) "A" "minor"
    (play_fresh App.ready rfl rfl) (by decide) k
  obtain ⟨h0, hsp⟩ := stop_play_running _ _ _ _ hr
  exact ⟨h0, (tick_running _ _ _ _ hsp (by decide)).1, by decide⟩

/-- The step cycle when the lead chord can be built: starting from a scheduler freshly created
by `play()` (Tone.js loaded, audio not yet started, the selected scale not a name inherited
from `Object.prototype`), whatever the
gate arrays are at each tick, tick number `n` publishes step `n mod 16` and completes without
an exception; the published step is below 16, the next tick publishes the successor (0 after
15), and 32 ticks publish 0,…,15,0,…,15. -/
theorem step_cycle_of_buildable_scale (s : App) (pats : Nat → Patterns) (htone : s.tone = true)
    (hfresh : s.isStarted = false) (hscale : s.scale ∉ objectPrototypeKeys) :
    (∀ n, (nthTick pats n (play s)).published = some (n % 16) ∧
      (nthTick pats n (play s)).error = none) ∧
    (∀ n, ∃ i, i < 16 ∧ (nthTick pats n (play s)).published = some i ∧
      (nthTick pats (n + 1) (play s)).published = some (if i = 15 then 0 else i + 1)) ∧
    (List.range 32).map (fun n => (nthTick pats n (play s)).published)
      = (List.range 16 ++ List.range 16).map some := by
  have key := nthTick_running pats (play s) s.root s.scale (play_fresh s htone hfresh) hscale
  refine ⟨key, ?_, ?_⟩
  · intro n
    refine ⟨n % 16, Nat.mod_lt _ (by decide), (key n).1, ?_⟩
    rw [(key (n + 1)).1]
    congr 1
    split_ifs with h <;> omega
  · have : (fun n => (nthTick pats n (play s)).published) = fun n => some (n % 16) :=
      funext fun n => (key n).1
    rw [this]
    decide

/-- Claim C6 (code defect): the published step does not advance on every tick.  With the scale
name `constructor` loaded from a stored preset before the first `play()` and the initial gate
arrays (lead gate true at step 0), `buildTranceChord` throws inside the loop callback before
the counter is advanced, so every tick publishes step 0; tick 1 publishes 0, not 1. -/
theorem step_index_stuck_on_inherited_scale (n : Nat) :
    (loadPreset App.ready Preset.inheritedScale).scale = "constructor" ∧
    (nthTick (fun _ => App.ready.patterns) n
      (play (loadPreset App.ready Preset.inheritedScale))).published = some 0 ∧
    (nthTick (fun _ => App.ready.patterns) n
      (play (loadPreset App.ready Preset.inheritedScale))).error
      = some (.typeError "semis.map is not a function") ∧
    (nthTick (fun _ => App.ready.patterns) 1
      (play (loadPreset App.ready Preset.inheritedScale))).published ≠ some (1 % 16) := by
  have hrun : ∀ k, Running
      (runTicks (fun _ => App.ready.patterns) k
        (play (loadPreset App.ready Preset.inheritedScale))) 0 "A" "constructor" := by
    intro k
    induction k with
    | zero => exact play_fresh _ rfl rfl
    | succ k ih =>
      exact (tick_stuck _ _ (withPatterns_running _ App.ready.patterns _ _ _ ih) rfl).2.2
  have h := fun k =>
    tick_stuck _ _ (withPatterns_running _ App.ready.patterns _ _ _ (hrun k)) rfl
  refine ⟨rfl, (h n).1, (h n).2.1, ?_⟩
  have h1 : (nthTick (fun _ => App.ready.patterns) 1
      (play (loadPreset App.ready Preset.inheritedScale))).published = some 0 := (h 1).1
  rw [h1]
  decide

/-- Claim C7: for every track name among kick, snare, hat, leadGate and every list `p` of
booleans, after `setAll(track, p)` the gate array of that track has length 16, its entry `i`
is `p[i]` for `i < min (length p) 16` and `false` for `length p ≤ i < 16`, and the gate array
of every other track is unchanged; `setAll("hat", [true, true])` gives two `true` followed by
fourteen `false`. -/
theorem setAll_pads (s : App) (track : String) (p : List Bool) (ht : track ∈ trackNames) :
    (getTrack (setAll s track (p.map some)) track).length = 16 ∧
    (∀ i, i < min p.length 16 →
      (getTrack (setAll s track (p.map some)) track)[i]? = p[i]?.map some) ∧
    (∀ i, p.length ≤ i → i < 16 →
      (getTrack (setAll s track (p.map some)) track)[i]? = some (some false)) ∧
    (∀ t, t ≠ track → getTrack (setAll s track (p.map some)) t = getTrack s t) ∧
    (setAll s "hat" ([true, true].map some)).hat
      = [some true, some true] ++ List.replicate 14 (some false) := by
  rw [setAll_track s track _ ht]
  refine ⟨pad_length _, ?_, ?_, ?_, rfl⟩
  · intro i hi
    have h1 : i < (p.map some).length := by simp; omega
    rw [pad_getElem?_lt _ i h1 (by omega), List.getElem?_map]
  · intro i h1 h2
    exact pad_getElem?_ge _ i (by simpa using h1) h2
  · intro t hne
    exact setAll_other s track t _ hne

/-- Claim C7 (witness): `setAll("hat", [true, true])` on the initial state. -/
theorem setAll_pads_witness :
    "hat" ∈ trackNames ∧
    (getTrack (setAll App.ready "hat" ([true, true].map some)) "hat").length = 16 ∧
    (getTrack (setAll App.ready "hat" ([true, true].map some)) "kick")
      = getTrack App.ready "kick" :=
  ⟨by decide, (setAll_pads App.ready "hat" [true, true] (by decide)).1,
    (setAll_pads App.ready "hat" [true, true] (by decide)).2.2.2.1 "kick" (by decide)⟩

/-- Claim C8 (counterexample): `toggleStep("foo", 0)` returns normally with the state
unchanged, and `toggleStep("kick", 16)` returns normally with the kick array lengthened to 17
entries, the new entry being `true`: neither call fails and the second changes a gate array. -/
theorem toggleStep_accepts_invalid :
    toggleStep App.ready "foo" 0 = .ok App.ready ∧
    toggleStep App.ready "kick" 16
      = .ok { App.ready with kick := App.ready.kick ++ [some true] } ∧
    App.ready.kick.length = 16 ∧
    App.ready.kick ++ [some true] ≠ App.ready.kick :=
  ⟨rfl, rfl, by decide, by decide⟩

/-- Claim C8 (amended): `toggleStep(track, index)` returns normally for every track name and
every index.  For a name that is not one of kick, snare, hat, leadGate the state is unchanged.
For one of the four names the gate arrays of the other tracks are unchanged, entry `index` of
the named track becomes the negation of its former truthiness, and its other entries are
unchanged. -/
theorem toggleStep_never_rejects (s : App) (track : String) (index : Nat) :
    ∃ s1, toggleStep s track index = .ok s1 ∧
      (track ∉ trackNames → s1 = s) ∧
      (∀ t, t ≠ track → getTrack s1 t = getTrack s t) ∧
      (track ∈ trackNames →
        (getTrack s1 track)[index]? = some (some (!(truthy (arrayGet (getTrack s track) index)))) ∧
        ∀ j, j ≠ index → j < (getTrack s track).length →
          (getTrack s1 track)[j]? = (getTrack s track)[j]?) := by
  obtain ⟨s1, h⟩ := toggleStep_returns s track index
  refine ⟨s1, h, ?_, ?_, ?_⟩
  · intro ht
    rw [toggleStep_unknown s track index ht] at h
    cases h
    rfl
  · intro t hne
    exact toggleStep_other s track t index hne s1 h
  · intro ht
    rw [toggleStep_track s track index ht s1 h]
    exact ⟨update_getElem?_self _ _, fun j hne hj => update_getElem?_other _ _ _ hne hj⟩

/-- Claim C8 (witness): the unknown track `foo` leaves the initial state unchanged, and
toggling step 0 of the kick track turns its gate off. -/
theorem toggleStep_never_rejects_witness :
    "foo" ∉ trackNames ∧ "kick" ∈ trackNames ∧
    (∃ s1, toggleStep App.ready "foo" 16 = .ok s1 ∧ s1 = App.ready) ∧
    (∃ s1, toggleStep App.ready "kick" 0 = .ok s1 ∧
      (getTrack s1 "kick")[0]? = some (some (!(truthy (arrayGet (getTrack App.ready "kick") 0))))) := by
  refine ⟨by decide, by decide, ?_, ?_⟩
  · obtain ⟨s1, h1, h2, -⟩ := toggleStep_never_rejects App.ready "foo" 16
    exact ⟨s1, h1, h2 (by decide)⟩
  · obtain ⟨s1, h1, -, -, h4⟩ := toggleStep_never_rejects App.ready "kick" 0
    exact ⟨s1, h1, (h4 (by decide)).1⟩

/-- Claim C9 (counterexample): `Bb4` and `B9` are note names, but transposing `Bb4` by 1 and
back by -1 gives `A#4`, and transposing `B9` by 1 and back gives `B3`. -/
theorem transpose_roundtrip_fails :
    specNoteName "Bb4" = some ("Bb", 4) ∧
    transpose (transpose "Bb4" 1) (-1) = "A#4" ∧
    transpose (transpose "Bb4" 1) (-1) ≠ "Bb4" ∧
    specNoteName "B9" = some ("B", 9) ∧
    transpose "B9" 1 = "C10" ∧
    transpose (transpose "B9" 1) (-1) = "B3" := by
  decide

/-- Claim C9 (amended): for every spelling `sp` among the keys of the table of `noteToMidi`,
every octave `o` from -1 to 9 and every integer `k` for which the transposed pitch number
`noteToMidi(sp ++ o) + k` lies in `[0, 132)` (octaves -1 to 9), transposing by `k` and back
by `-k` gives the sharp spelling of the same pitch class with the same octave; for a name
already spelled with one of the twelve sharp names this is the name itself. -/
theorem transpose_roundtrip (sp : String) (o k m : Int) (hsp : sp ∈ tableSpellings)
    (hlo : -1 ≤ o) (hhi : o ≤ 9) (hm : noteToMidi (sp ++ toString o) = .int m)
    (hk0 : 0 ≤ m + k) (hk1 : m + k < 132) :
    transpose (transpose (sp ++ toString o) k) (-k) = sharpSpelling sp ++ toString o ∧
    (sp ∈ names → transpose (transpose (sp ++ toString o) k) (-k) = sp ++ toString o) := by
  have h := transpose_back sp o k m hsp hlo hhi hm hk0 hk1
  refine ⟨h, fun hs => ?_⟩
  rw [h, (spelling_table sp hsp).2.2 hs]

/-- Claim C9 (witness): `A4` transposed by 12 and back by -12 is `A4`. -/
theorem transpose_roundtrip_witness :
    "A" ∈ tableSpellings ∧ "A" ∈ names ∧ (-1 : Int) ≤ 4 ∧ (4 : Int) ≤ 9 ∧
    noteToMidi ("A" ++ toString (4 : Int)) = .int 69 ∧ (0 : Int) ≤ 69 + 12 ∧
    (69 : Int) + 12 < 132 ∧
    transpose (transpose ("A" ++ toString (4 : Int)) 12) (-12) = "A" ++ toString (4 : Int) :=
  ⟨by decide, by decide, by decide, by decide, by decide, by decide, by decide,
    (transpose_roundtrip "A" 4 12 69 (by decide) (by decide) (by decide) (by decide)
      (by decide) (by decide)).2 (by decide)⟩

/-- Claim C10 (code defect): `noteToMidi` does not return an integer for every string.  The
string `E#4` is accepted by the regular expression, but `E#` is no key of the table, so the
result is `NaN`, neither a pitch number nor the fallback 60. -/
theorem noteToMidi_unlisted_spelling :
    specNoteName "E#4" = some ("E#", 4) ∧
    matchNote "E#4" = some ("E#", "4") ∧
    noteToMidi "E#4" = JSNum.nan ∧
    midiToNote (noteToMidi "E#4") = "undefinedNaN" := by
  decide

end TranceStudio
